import Mathlib

/- Verification of the MicroAutoChess combat core (src/src/core): a shallow
embedding of the unit damage model (units.py, damage.py), the board occupancy
model (board.py) and the combat-engine planning logic (combat.py), together
with theorems settling the specification's claims.

Python floats are modelled as rationals, Python ints as integers, exceptions
as Except/Option results. Methods that mutate an object are modelled as
functions returning the updated value. -/

namespace AutoChess

/-- Damage type tags (constant_types.py, class DamageType). -/
inductive DamageType where
  | PHYSICAL
  | MAGICAL
  | TRUE
deriving DecidableEq

/-- Combat action kinds (constant_types.py, class CombatAction). -/
inductive CombatAction where
  | MOVE
  | ATTACK
  | CAST_SPELL
  | WAIT
deriving DecidableEq

/-- Combat event kinds (constant_types.py, class CombatEventType), restricted to
the ones emitted by the operations embedded here. -/
inductive CombatEventType where
  | DAMAGE_DEALT
  | HEALING_DONE
  | ACTION_PLANNED
  | CONFLICT_RESOLVED
  | OTHER_EVENT
deriving DecidableEq

/-- Raw unmitigated damage information (damage.py, class Damage), restricted
to objects whose dmg_type carries one of the three DamageType tags — which is
every Damage the engine and the spells construct for the damage path. The
source field is Optional[DamageType] with default None; the full domain
including the untagged case is DamageOpt below, with take_damage_opt its
faithful take_damage. Provenance fields that no claim inspects
(source_unit_id, target_unit_id, spell_name, match_id) are omitted. -/
structure Damage where
  value : ℚ
  frame_number : ℤ
  dmg_type : DamageType
  crit : Bool := false
  dot : Bool := false
  heal : Bool := false
deriving DecidableEq

/-- Combat log record (combat_event.py, class CombatEvent), keeping the fields
the claims inspect. source/target are Python object references and are not
needed by any claim. -/
structure CombatEvent where
  frame_number : ℤ
  event_type : CombatEventType := CombatEventType.OTHER_EVENT
  damage : ℚ := 0
  crit_bool : Bool := false
deriving DecidableEq

/-- The data of a spell that the combat engine reads (spells.py,
class AbstractSpell and its subclasses): whether it is ranged, its cast range
and its per-spell delay. The prepare/execute methods are dynamic dispatch with
side effects; where the engine calls them, their outcome is passed to the
embedded engine code as an explicit argument. -/
structure SpellInfo where
  ranged : Bool := false
  range : ℚ := 0
  spell_delay : ℤ := 2
deriving DecidableEq

/-- Base statistics for a unit (units.py, class UnitStats). -/
structure UnitStats where
  health : ℚ
  attack : ℚ
  spell_power : ℚ
  defense : ℚ
  resistance : ℚ
  range : ℚ
  crit_rate : ℚ := 1 / 4
  crit_dmg : ℚ := 3 / 2
  mana : ℚ := 0
  max_mana : ℚ := 100
  move_speed : ℚ := 1
  attack_speed : ℚ := 1
  spell : SpellInfo := { ranged := true, range := 5, spell_delay := 2 }
deriving DecidableEq

/-- A unit (units.py, class Unit), keeping the fields the claims inspect.
current_target holds the id of the cached target unit (a Python object
reference in the source); buffs_attack_speed models buffs.get with the
"attack_speed" key (None when the key is absent). -/
structure Unit where
  id : ℕ
  team : ℤ
  level : ℤ := 1
  position : Option (ℕ × ℕ) := none
  planned_position : Option (ℕ × ℕ) := none
  current_health : ℚ
  current_mana : ℚ := 0
  basic_attack_mana : ℚ := 10
  spell_crit : Bool := false
  basic_attack_overflow : ℚ := 0
  current_target : Option ℕ := none
  buffs_attack_speed : Option ℚ := none
  base_stats : UnitStats
deriving DecidableEq

/-- units.py Unit.get_max_health: `base_stats.health * (1 + (level - 1) * 0.5)`. -/
def Unit.get_max_health (u : Unit) : ℚ :=
  u.base_stats.health * (1 + ((u.level : ℚ) - 1) * (1 / 2))

/-- units.py Unit.get_defense. -/
def Unit.get_defense (u : Unit) : ℚ := u.base_stats.defense

/-- units.py Unit.get_resistance. -/
def Unit.get_resistance (u : Unit) : ℚ := u.base_stats.resistance

/-- units.py Unit.get_attack_speed:
`base_stats.attack_speed * buffs.get("attack_speed", 1.0)`. -/
def Unit.get_attack_speed (u : Unit) : ℚ :=
  u.base_stats.attack_speed * (u.buffs_attack_speed.getD 1)

/-- units.py Unit.is_alive: `current_health > 0`. -/
def Unit.is_alive (u : Unit) : Bool := decide (0 < u.current_health)

/-- units.py Unit.premigitation_mana:
`current_mana = min(max_mana, current_mana + 0.01 * dmg)`. -/
def Unit.premigitation_mana (u : Unit) (dmg : ℚ) : Unit :=
  { u with current_mana := min u.base_stats.max_mana (u.current_mana + (1 / 100) * dmg) }

/-- units.py Unit.postmigitation_mana:
`current_mana = min(max_mana, current_mana + 0.07 * dmg)`. -/
def Unit.postmigitation_mana (u : Unit) (dmg : ℚ) : Unit :=
  { u with current_mana := min u.base_stats.max_mana (u.current_mana + (7 / 100) * dmg) }

/-- The mitigated damage computed inside units.py Unit.take_damage:
Physical is reduced by defense, Magical by resistance (each floored at 1),
True damage is taken at face value. -/
def mitigated_damage (u : Unit) (d : Damage) : ℚ :=
  match d.dmg_type with
  | DamageType.PHYSICAL => max 1 (d.value * 100 / (100 + u.get_defense))
  | DamageType.MAGICAL => max 1 (d.value * 100 / (100 + u.get_resistance))
  | DamageType.TRUE => d.value

/-- units.py Unit.take_damage: rejects heal-tagged Damage, grants
pre-mitigation mana, mitigates, caps at remaining health, subtracts health,
grants post-mitigation mana, appends a DAMAGE_DEALT event carrying the Damage
object's frame number, and returns the actual damage taken. The result is the
updated unit, the returned value, and the appended log event. -/
def Unit.take_damage (u : Unit) (d : Damage) : Except String (Unit × ℚ × CombatEvent) :=
  if d.heal then
    Except.error ("Damage object indicates healing, use heal() method instead.")
  else
    let u1 := u.premigitation_mana d.value
    let actual := min (mitigated_damage u1 d) u1.current_health
    let u2 := { u1 with current_health := u1.current_health - actual }
    let u3 := u2.postmigitation_mana actual
    Except.ok (u3, actual,
      { frame_number := d.frame_number
        event_type := CombatEventType.DAMAGE_DEALT
        damage := actual
        crit_bool := d.crit })

/-- units.py Unit.heal: rejects non-heal Damage, raises health by the heal
value capped at the level-scaled max, and appends a HEALING_DONE event whose
frame number is the hardcoded constant 0 (the source comment reads
"This should be set by the combat engine"). -/
def Unit.heal (u : Unit) (d : Damage) : Except String (Unit × CombatEvent) :=
  if !d.heal then
    Except.error ("Damage object does not indicate healing, use take_damage() method instead.")
  else
    let max_health := u.get_max_health
    let u1 := { u with current_health := min max_health (u.current_health + d.value) }
    Except.ok (u1,
      { frame_number := 0
        event_type := CombatEventType.HEALING_DONE
        damage := d.value
        crit_bool := false })

/-- Whether an Except result is a success (no exception raised). -/
def exceptOk {ε α : Type} (e : Except ε α) : Bool :=
  match e with
  | Except.ok _ => true
  | Except.error _ => false

/-- damage.py class Damage with the dmg_type field exactly as in the source:
Optional[DamageType] with default None. Damage above is its restriction to
tagged objects, which is all the combat engine and spells ever construct for
the damage path. -/
structure DamageOpt where
  value : ℚ
  frame_number : ℤ
  dmg_type : Option DamageType := none
  crit : Bool := false
  dot : Bool := false
  heal : Bool := false
deriving DecidableEq

/-- View of a DamageOpt known to carry the tag t as a tagged Damage. -/
def DamageOpt.tag (d : DamageOpt) (t : DamageType) : Damage :=
  { value := d.value
    frame_number := d.frame_number
    dmg_type := t
    crit := d.crit
    dot := d.dot
    heal := d.heal }

/-- units.py Unit.take_damage on the full Damage domain, including the
untagged (dmg_type None) case: the heal check raises first; otherwise
premitigation mana is granted, and then the if/elif chain on dmg_type binds
mitigated_damage only for the three DamageType tags — for None (or any other
value) no branch runs, an error is merely logged, and the following
`min(mitigated_damage, ...)` raises an UnboundLocalError, after the mana
mutation has already happened. The error therefore carries the unit state at
the moment of the raise. -/
def Unit.take_damage_opt (u : Unit) (d : DamageOpt) :
    Except (String × Unit) (Unit × ℚ × CombatEvent) :=
  if d.heal then
    Except.error ("Damage object indicates healing, use heal() method instead.", u)
  else
    let u1 := u.premigitation_mana d.value
    match d.dmg_type with
    | some t =>
      let actual := min (mitigated_damage u1 (d.tag t)) u1.current_health
      let u2 := { u1 with current_health := u1.current_health - actual }
      let u3 := u2.postmigitation_mana actual
      Except.ok (u3, actual,
        { frame_number := d.frame_number
          event_type := CombatEventType.DAMAGE_DEALT
          damage := actual
          crit_bool := d.crit })
    | none =>
      Except.error ("UnboundLocalError: local variable referenced before assignment", u1)

/-- units.py Unit.heal on the full Damage domain: heal never reads dmg_type,
so it behaves identically on untagged objects. -/
def Unit.heal_opt (u : Unit) (d : DamageOpt) : Except String (Unit × CombatEvent) :=
  if !d.heal then
    Except.error ("Damage object does not indicate healing, use take_damage() method instead.")
  else
    let max_health := u.get_max_health
    let u1 := { u with current_health := min max_health (u.current_health + d.value) }
    Except.ok (u1,
      { frame_number := 0
        event_type := CombatEventType.HEALING_DONE
        damage := d.value
        crit_bool := false })

/-- The unit state carried by a take_damage_opt raise (none on success). -/
def error_unit_of (e : Except (String × Unit) (Unit × ℚ × CombatEvent)) : Option Unit :=
  match e with
  | Except.error r => some r.2
  | Except.ok _ => none

/-- The value returned by take_damage (none when it raises). -/
def damage_return (u : Unit) (d : Damage) : Option ℚ :=
  match u.take_damage d with
  | Except.ok r => some r.2.1
  | Except.error _ => none

/-- The unit's current_health after take_damage (none when it raises). -/
def health_after (u : Unit) (d : Damage) : Option ℚ :=
  match u.take_damage d with
  | Except.ok r => some r.1.current_health
  | Except.error _ => none

/-- The unit's current_health after heal (none when it raises). -/
def heal_health_after (u : Unit) (d : Damage) : Option ℚ :=
  match u.heal d with
  | Except.ok r => some r.1.current_health
  | Except.error _ => none

/-- spells.py SelfHealSpell.execute: when the target (the caster, set by
prepare) is alive, heals it for heal_amount * spell_power via Unit.heal with a
heal-tagged Damage carrying the engine's frame number. Returns the updated
unit and the appended log event. The dmg_type field is never read on the heal
path (Python leaves it None). -/
def selfHealSpellExecute (source : Unit) (frame_number : ℤ) : Option (Unit × CombatEvent) :=
  if source.is_alive then
    match source.heal
        { value := 100 * source.base_stats.spell_power
          frame_number := frame_number
          dmg_type := DamageType.TRUE
          crit := false
          heal := true } with
    | Except.ok r => some r
    | Except.error _ => none
  else
    none

/-- Cell occupancy tags (board.py, class CellType). -/
inductive CellType where
  | EMPTY
  | PLANNED
  | UNIT
  | OBSTACLE
deriving DecidableEq

/-- A single cell of the board (board.py, class BoardCell): a unit reference
(modelled by unit id) and an occupancy tag. The position field is implicit in
the board's cell map. -/
structure BoardCell where
  unit : Option ℕ := none
  cell_type : CellType := CellType.EMPTY
deriving DecidableEq

/-- board.py BoardCell.is_empty: `unit is None and cell_type == EMPTY`. -/
def BoardCell.is_empty (c : BoardCell) : Bool :=
  c.unit == none && c.cell_type == CellType.EMPTY

/-- board.py BoardCell.is_planned. -/
def BoardCell.is_planned (c : BoardCell) : Bool := c.cell_type == CellType.PLANNED

/-- board.py BoardCell.is_occupied. -/
def BoardCell.is_occupied (c : BoardCell) : Bool := c.cell_type == CellType.UNIT

/-- The board state (board.py, class Board) together with the position fields
stored on the unit objects themselves: upos uid models unit.position and
ppos uid models unit.planned_position for the unit with id uid. Python cell
positions are int pairs; the board only ever creates cells at nonnegative
in-bounds coordinates, and every operation rejects out-of-bounds positions,
so positions are modelled as pairs of naturals. -/
structure BState where
  width : ℕ
  height : ℕ
  cells : ℕ × ℕ → BoardCell
  upos : ℕ → Option (ℕ × ℕ)
  ppos : ℕ → Option (ℕ × ℕ)

/-- board.py Board.is_valid_position: `0 <= x < width and 0 <= y < height`. -/
def BState.is_valid_position (s : BState) (p : ℕ × ℕ) : Bool :=
  p.1 < s.width && p.2 < s.height

/-- board.py Board.__init__: all in-bounds cells empty; no unit has a
position. -/
def Board_init (w h : ℕ) : BState :=
  { width := w
    height := h
    cells := fun _ => {}
    upos := fun _ => none
    ppos := fun _ => none }

/-- board.py Board.place_unit: rejects out-of-bounds or non-empty cells
(returning false), otherwise occupies the cell with the unit and stores the
cell's position on the unit (BoardCell.place_unit). -/
def BState.place_unit (s : BState) (uid : ℕ) (pos : ℕ × ℕ) : BState × Bool :=
  if !(s.is_valid_position pos) then (s, false)
  else if !((s.cells pos).is_empty) then (s, false)
  else
    ({ s with
        cells := Function.update s.cells pos { unit := some uid, cell_type := CellType.UNIT }
        upos := Function.update s.upos uid (some pos) },
      true)

/-- board.py Board.move_unit. Returns none where the Python code would raise
(BoardCell.place_unit on a cell that is neither empty nor planned — unreachable
from reachable states), otherwise the updated state and the returned bool.
Mirrors the source order: validity checks, the from-cell unit check, clearing
the moving unit's planned_position, the destination check, then
remove_unit followed by place_unit. -/
def BState.move_unit (s : BState) (fromp top : ℕ × ℕ) : Option (BState × Bool) :=
  if !(s.is_valid_position fromp && s.is_valid_position top) then some (s, false)
  else
    match (s.cells fromp).unit with
    | none => some (s, false)
    | some uid =>
      let s1 := { s with ppos := Function.update s.ppos uid none }
      let tc := s1.cells top
      if (tc.is_planned && !(tc.unit == some uid)) || tc.is_occupied then some (s1, false)
      else
        let s2 := { s1 with
          cells := Function.update s1.cells fromp {}
          upos := Function.update s1.upos uid none }
        let tc2 := s2.cells top
        if tc2.is_empty || tc2.is_planned then
          some ({ s2 with
              cells := Function.update s2.cells top { unit := some uid, cell_type := CellType.UNIT }
              upos := Function.update s2.upos uid (some top) },
            true)
        else none

/-- board.py Board.remove_unit (which calls BoardCell.remove_unit): none where
Python raises (out-of-bounds position, empty cell, or a non-empty cell holding
no unit reference); otherwise empties the cell and clears the removed unit's
stored position. -/
def BState.remove_unit (s : BState) (pos : ℕ × ℕ) : Option BState :=
  if !(s.is_valid_position pos) then none
  else
    let c := s.cells pos
    if !(c.is_empty) then
      match c.unit with
      | some uid =>
        some { s with
          cells := Function.update s.cells pos {}
          upos := Function.update s.upos uid none }
      | none => none
    else none

/-- board.py Board.set_planned: none where Python raises (out-of-bounds or
non-empty cell); otherwise tags the cell PLANNED and stores the unit reference
in it, without touching the unit's own position. -/
def BState.set_planned (s : BState) (pos : ℕ × ℕ) (uid : ℕ) : Option BState :=
  if !(s.is_valid_position pos) then none
  else if (s.cells pos).is_empty then
    some { s with
      cells := Function.update s.cells pos { unit := some uid, cell_type := CellType.PLANNED } }
  else none

/-- The board's cell keys in Python dict insertion order (x outer, y inner). -/
def BState.all_positions (s : BState) : List (ℕ × ℕ) :=
  (List.range s.width) ×ˢ (List.range s.height)

/-- board.py Board.get_units: every cell's unit reference, in cell iteration
order, skipping cells with no unit. Note this includes PLANNED cells. -/
def BState.get_units (s : BState) : List ℕ :=
  s.all_positions.filterMap (fun p => (s.cells p).unit)

/-- A planned action (combat.py, class PlannedAction), keeping the fields the
claims inspect. spell_instance and description are dropped. -/
structure PlannedAction where
  unit : Unit
  action_type : CombatAction
  target : Option Unit := none
  target_position : Option (ℕ × ℕ) := none
  resolution_frame : ℤ := 0
  planned_frame : ℤ := 0
  start_position : Option (ℕ × ℕ) := none
deriving DecidableEq

/-- The attack-timing computation of combat.py CombatEngine._plan_actions
(the ATTACK branch): convert the attack delay into a whole number of frames
through the unit's effective attack speed, banking the rounding remainder in
basic_attack_overflow. Returns the updated unit and the action's resolution
frame. -/
def plan_attack_timing (frame : ℤ) (attack_delay : ℚ) (u : Unit) : Unit × ℤ :=
  let initiative_needed := attack_delay - u.basic_attack_overflow
  let frames_to_wait := initiative_needed / u.get_attack_speed
  let rounded_frames := ⌈frames_to_wait⌉
  let u1 := { u with
    basic_attack_overflow := (rounded_frames : ℚ) * u.get_attack_speed - initiative_needed }
  (u1, frame + rounded_frames)

/-- The scan state of combat.py CombatEngine._find_target: the current
closest enemy paired with min_distance (none while min_distance is infinite),
the tie count best_count, and the index of the next RNG roll to consume. -/
structure FTState where
  closest : Option (Unit × ℚ)
  best_count : ℕ
  idx : ℕ

/-- One iteration of the enemy scan in combat.py CombatEngine._find_target.
dist e gives board.pathfind_distance_to_range(unit.position, e.position,
unit.base_stats.range) with none for float inf; l2 e gives
board.l2_distance(unit.position, e.position); rolls is the stream of
self.rng.random() values. -/
def find_target_step (dist : Unit → Option ℚ) (l2 : Unit → ℚ) (rolls : ℕ → ℚ)
    (st : FTState) (e : Unit) : FTState :=
  if e.position = none then st
  else
    match dist e with
    | none => st
    | some d =>
      match st.closest with
      | none => { closest := some (e, d), best_count := 1, idx := st.idx }
      | some (c, md) =>
        if d < md then { closest := some (e, d), best_count := 1, idx := st.idx }
        else if d = md then
          let l2_distance_current := l2 c
          let l2_distance_new := l2 e
          if l2_distance_new < l2_distance_current then { st with closest := some (e, md) }
          else if l2_distance_new = l2_distance_current then
            { closest :=
                if rolls st.idx < 1 / (st.best_count : ℚ) then some (e, md) else some (c, md)
              best_count := st.best_count + 1
              idx := st.idx + 1 }
          else st
        else st

/-- combat.py CombatEngine._find_target. sticky_dist gives
board.pathfind_distance_to_range(unit.position, current_target.position,
unit.base_stats.range) for the cached current target (none for inf): when the
cached target is among the enemies and sticky_dist is at most 1.66, it is
returned unchanged; otherwise the enemies are scanned as in find_target_step
and the winner becomes the new target. (The source also stores the winner in
unit.current_target; the claims only concern the selection.) -/
def find_target (dist : Unit → Option ℚ) (l2 : Unit → ℚ) (sticky_dist : Option ℚ)
    (rolls : ℕ → ℚ) (u : Unit) (enemies : List Unit) : Option Unit :=
  if enemies.isEmpty || u.position == none then none
  else
    let sticky := match u.current_target, sticky_dist with
      | some ct, some sd => enemies.any (fun e => e.id == ct) && decide (sd ≤ 83 / 50)
      | _, _ => false
    if sticky then
      match u.current_target with
      | some ct => enemies.find? (fun e => e.id == ct)
      | none => none
    else
      let final := enemies.foldl (find_target_step dist l2 rolls)
        { closest := none, best_count := 1, idx := 0 }
      final.closest.map Prod.fst

/-- combat.py CombatEngine._plan_unit_action. The collaborator calls are
passed in as arguments: dist, l2 and sticky_dist and rolls feed _find_target
as in find_target; prep is the boolean returned by spell.prepare and
prep_target the target the prepare call stored on the spell; move_target is
the cell returned by _plan_movement (the next path step, or the unit's own
position when there is no path). Returns the updated unit (mana is spent at
planning time on a cast) and the planned action, or the raised error. -/
def plan_unit_action (u : Unit) (all_units : List Unit)
    (dist : Unit → Option ℚ) (l2 : Unit → ℚ) (sticky_dist : Option ℚ) (rolls : ℕ → ℚ)
    (prep : Bool) (prep_target : Option Unit) (move_target : ℕ × ℕ) :
    Except String (Unit × PlannedAction) :=
  let enemies := all_units.filter (fun e => e.is_alive && !(e.team == u.team))
  if enemies.isEmpty || u.position == none then
    Except.ok (u, { unit := u, action_type := CombatAction.WAIT })
  else if decide (u.base_stats.max_mana ≤ u.current_mana) && !u.base_stats.spell.ranged then
    if prep then
      let u1 := { u with current_mana := u.current_mana - u.base_stats.max_mana }
      Except.ok (u1,
        { unit := u1, action_type := CombatAction.CAST_SPELL, target := prep_target })
    else Except.error ("Invalid prepare for spell")
  else
    match find_target dist l2 sticky_dist rolls u enemies with
    | none => Except.ok (u, { unit := u, action_type := CombatAction.WAIT })
    | some target =>
      if target.position = none then
        Except.ok (u, { unit := u, action_type := CombatAction.WAIT })
      else
        let distance := l2 target
        if decide (u.base_stats.max_mana ≤ u.current_mana) && u.base_stats.spell.ranged
            && decide (distance ≤ u.base_stats.spell.range + 1 / 100) then
          if prep then
            let u1 := { u with current_mana := u.current_mana - u.base_stats.max_mana }
            Except.ok (u1,
              { unit := u1, action_type := CombatAction.CAST_SPELL, target := prep_target })
          else Except.error ("Invalid prepare for spell")
        else if decide (distance ≤ u.base_stats.range + 66 / 100) then
          Except.ok (u, { unit := u, action_type := CombatAction.ATTACK, target := some target })
        else if some move_target == u.position then
          Except.ok (u, { unit := u, action_type := CombatAction.WAIT })
        else
          Except.ok (u,
            { unit := u, action_type := CombatAction.MOVE, target_position := some move_target })

/-- Whether plan_unit_action raised an exception. -/
def plan_raises (u : Unit) (all_units : List Unit)
    (dist : Unit → Option ℚ) (l2 : Unit → ℚ) (sticky_dist : Option ℚ) (rolls : ℕ → ℚ)
    (prep : Bool) (prep_target : Option Unit) (move_target : ℕ × ℕ) : Bool :=
  !(exceptOk (plan_unit_action u all_units dist l2 sticky_dist rolls prep prep_target move_target))

/-- The conflict-resolution block at the end of combat.py
CombatEngine._plan_actions, for one contested destination: the chosen action
(the RNG pick, given here by its index k) is queued first and keeps its kind
and timing, its destination cell is marked planned on the board and recorded
as the winner's planned_position; every other action in the claimant list (the
source filters by inequality with the chosen action) is converted to WAIT with
resolution frame equal to the current frame plus the move delay, and queued.
none where board.set_planned raises. -/
def resolve_position_conflict (s : BState) (frame move_delay : ℤ)
    (actions : List PlannedAction) (k : Fin actions.length) :
    Option (List PlannedAction × BState) :=
  let chosen_action := actions.get k
  match chosen_action.target_position with
  | none => none
  | some pos =>
    match s.set_planned pos chosen_action.unit.id with
    | none => none
    | some s1 =>
      let s2 := { s1 with
        ppos := Function.update s1.ppos chosen_action.unit.id (some pos) }
      let losers := (actions.filter (fun a => a != chosen_action)).map
        (fun a => { a with
          action_type := CombatAction.WAIT
          resolution_frame := frame + move_delay })
      some (chosen_action :: losers, s2)

/-- A board operation, for reasoning about sequences of the mutating board
calls (board.py place_unit / move_unit / remove_unit). -/
inductive Cmd where
  | place (uid : ℕ) (pos : ℕ × ℕ)
  | move (fromp top : ℕ × ℕ)
  | remove (pos : ℕ × ℕ)
deriving DecidableEq

/-- Run one board operation; none where the Python call raises. -/
def runCmd : Cmd → BState → Option BState
  | Cmd.place uid pos, s => some (s.place_unit uid pos).1
  | Cmd.move fromp top, s => (s.move_unit fromp top).map Prod.fst
  | Cmd.remove pos, s => s.remove_unit pos

/-- Run a sequence of board operations, stopping at the first raise. -/
def runCmds : List Cmd → BState → Option BState
  | [], s => some s
  | c :: cs, s =>
    match runCmd c s with
    | some s1 => runCmds cs s1
    | none => none

/-- Caller-contract precondition of one operation: place_unit must be given a
unit that is not already on the board (Python would otherwise silently leave
the unit's old cell holding a stale reference). -/
def cmdPre : Cmd → BState → Bool
  | Cmd.place uid _, s => s.upos uid == none
  | Cmd.move _ _, _ => true
  | Cmd.remove _, _ => true

/-- The preconditions of a whole operation sequence, checked along its
execution. -/
def safeCmds : List Cmd → BState → Bool
  | [], _ => true
  | c :: cs, s =>
    cmdPre c s &&
      (match runCmd c s with
       | some s1 => safeCmds cs s1
       | none => true)

/-- The occupancy invariant: no planned or obstacle cells; empty cells hold no
unit reference; every occupied cell holds a unit whose stored position is that
cell; a unit's stored position is a valid cell occupied by exactly that unit;
out-of-bounds positions are empty. -/
def Good (s : BState) : Prop :=
  (∀ p, (s.cells p).cell_type = CellType.EMPTY ∨ (s.cells p).cell_type = CellType.UNIT) ∧
  (∀ p, (s.cells p).cell_type = CellType.EMPTY → (s.cells p).unit = none) ∧
  (∀ p, (s.cells p).cell_type = CellType.UNIT →
    ∃ uid, (s.cells p).unit = some uid ∧ s.upos uid = some p) ∧
  (∀ uid p, s.upos uid = some p →
    s.is_valid_position p = true ∧ (s.cells p).unit = some uid ∧
      (s.cells p).cell_type = CellType.UNIT) ∧
  (∀ p, s.is_valid_position p = false → s.cells p = {})

/-- The claim's occupancy conclusions, stated on the optional outcome of an
operation sequence (trivially true when the sequence raised): no unit
reference is stored in two cells; a cell is occupied exactly when it holds a
unit whose stored position is that cell; no two units report the same
position; get_units returns each unit at most once. -/
def OccupancyOk : Option BState → Prop
  | none => True
  | some s =>
    (∀ p q uid, (s.cells p).unit = some uid → (s.cells q).unit = some uid → p = q) ∧
    (∀ p, (s.cells p).is_occupied = true ↔
      ∃ uid, (s.cells p).unit = some uid ∧ s.upos uid = some p) ∧
    (∀ uid v p, s.upos uid = some p → s.upos v = some p → uid = v) ∧
    s.get_units.Nodup

/-- A plain unit matching the default stat fallback in units.py
_get_default_stats. -/
def u_basic : Unit :=
  { id := 0
    team := 1
    position := some (0, 0)
    current_health := 100
    base_stats :=
      { health := 100, attack := 10, spell_power := 1, defense := 5, resistance := 5
        range := 1 } }

/-- A tank unit (units.py _get_default_stats, UnitType.TANK) that has taken
damage, with the SelfHealSpell data. -/
def tank_example : Unit :=
  { id := 7
    team := 2
    position := some (1, 1)
    current_health := 800
    base_stats :=
      { health := 1500, attack := 50, spell_power := 1, defense := 60, resistance := 60
        range := 1, spell := { ranged := false, range := 0, spell_delay := 1 } } }

/-- A change to current_mana alone does not change the mitigated damage. -/
lemma mitigated_mana (u : Unit) (d : Damage) (x : ℚ) :
    mitigated_damage { u with current_mana := x } d = mitigated_damage u d := by
  cases d.dmg_type <;> rfl

/-- Premitigation mana gain does not change the mitigated damage (only
current_mana moves). -/
lemma mitigated_premigitation (u : Unit) (d : Damage) (x : ℚ) :
    mitigated_damage (u.premigitation_mana x) d = mitigated_damage u d := by
  cases d.dmg_type <;> rfl

/-- Premitigation mana gain does not change current_health. -/
lemma premigitation_health (u : Unit) (x : ℚ) :
    (u.premigitation_mana x).current_health = u.current_health := rfl

/-- Mitigated damage is nonnegative for nonnegative raw damage (Physical and
Magical are floored at 1 regardless). -/
lemma mitigated_nonneg (u : Unit) (d : Damage) (hdv : 0 ≤ d.value) :
    0 ≤ mitigated_damage u d := by
  unfold mitigated_damage
  cases d.dmg_type
  · exact le_trans zero_le_one (le_max_left _ _)
  · exact le_trans zero_le_one (le_max_left _ _)
  · exact hdv

/-- take_damage on a non-heal Damage succeeds and returns
min (mitigated_damage u d) u.current_health, leaving current_health lowered by
exactly that amount. -/
lemma take_damage_ok (u : Unit) (d : Damage) (hheal : d.heal = false) :
    damage_return u d = some (min (mitigated_damage u d) u.current_health) ∧
    health_after u d =
      some (u.current_health - min (mitigated_damage u d) u.current_health) := by
  unfold damage_return health_after Unit.take_damage
  rw [hheal]
  simp [mitigated_mana, premigitation_health, Unit.postmigitation_mana,
    Unit.premigitation_mana]

/-- Claim C1: for every unit and non-heal Damage with positive raw value, the
mitigated damage applied by take_damage is max(1, r*100/(100+d)) for Physical
(d the defense) and Magical (d the resistance) and exactly r for True damage,
and under the precondition that current_health is at least the mitigated
value, take_damage returns exactly the mitigated value. -/
theorem spec_C1 (u : Unit) (d : Damage) (hheal : d.heal = false) (hr : 0 < d.value)
    (hcap : mitigated_damage u d ≤ u.current_health) :
    damage_return u d = some (mitigated_damage u d) ∧
    (d.dmg_type = DamageType.PHYSICAL →
      mitigated_damage u d = max 1 (d.value * 100 / (100 + u.get_defense))) ∧
    (d.dmg_type = DamageType.MAGICAL →
      mitigated_damage u d = max 1 (d.value * 100 / (100 + u.get_resistance))) ∧
    (d.dmg_type = DamageType.TRUE → mitigated_damage u d = d.value) := by
  refine ⟨?_, ?_, ?_, ?_⟩
  · rw [(take_damage_ok u d hheal).1, min_eq_left hcap]
  · intro ht; unfold mitigated_damage; rw [ht]
  · intro ht; unfold mitigated_damage; rw [ht]
  · intro ht; unfold mitigated_damage; rw [ht]

/-- A 50-point Physical hit (as produced by a basic attack). -/
def d_phys50 : Damage := { value := 50, frame_number := 1, dmg_type := DamageType.PHYSICAL }

/-- A heal-tagged 40-point heal object. -/
def d_heal40 : Damage :=
  { value := 40, frame_number := 1, dmg_type := DamageType.TRUE, heal := true }

/-- A True-typed damage object with negative raw value. -/
def d_true_neg5 : Damage := { value := -5, frame_number := 1, dmg_type := DamageType.TRUE }

/-- Witness for C1: a Physical hit of 50 on a defense-5 unit with 100 health
is mitigated to 1000/21 and returned in full. -/
theorem spec_C1_witness :
    d_phys50.heal = false ∧ 0 < d_phys50.value ∧
    mitigated_damage u_basic d_phys50 ≤ u_basic.current_health ∧
    damage_return u_basic d_phys50 = some (mitigated_damage u_basic d_phys50) :=
  ⟨rfl, by norm_num [d_phys50],
    by norm_num [mitigated_damage, u_basic, d_phys50, Unit.get_defense, max_le_iff],
    (spec_C1 u_basic d_phys50 rfl (by norm_num [d_phys50])
      (by norm_num [mitigated_damage, u_basic, d_phys50, Unit.get_defense, max_le_iff])).1⟩

/-- Counterexample to claim C5 as stated: a True-typed Damage with negative raw
value -5 makes take_damage increase current_health from 100 to 105, so
current_health is not non-increasing under take_damage. -/
theorem spec_C5_counterexample :
    health_after u_basic d_true_neg5 = some 105 ∧
    u_basic.current_health = 100 ∧ ¬ ((105:ℚ) ≤ 100) := by
  refine ⟨?_, rfl, by norm_num⟩
  rw [(take_damage_ok u_basic d_true_neg5 rfl).2]
  norm_num [mitigated_damage, u_basic, d_true_neg5, min_def]

/-- Claim C5 as amended: for damage and heal objects with nonnegative value,
take_damage is non-increasing on a nonnegative current_health and never makes
it negative, and heal never decreases current_health and caps it at the
level-scaled max provided current_health did not already exceed that max. -/
theorem spec_C5_amended (u : Unit) (d e : Damage)
    (hd : d.heal = false) (hdv : 0 ≤ d.value) (hu : 0 ≤ u.current_health)
    (he : e.heal = true) (hev : 0 ≤ e.value) (hmax : u.current_health ≤ u.get_max_health) :
    (∃ h1, health_after u d = some h1 ∧ h1 ≤ u.current_health ∧ 0 ≤ h1) ∧
    (∃ h2, heal_health_after u e = some h2 ∧ u.current_health ≤ h2 ∧
      h2 ≤ u.get_max_health) := by
  constructor
  · refine ⟨_, (take_damage_ok u d hd).2, ?_, ?_⟩
    · exact sub_le_self _ (le_min (mitigated_nonneg u d hdv) hu)
    · exact sub_nonneg.2 (min_le_right _ _)
  · refine ⟨min u.get_max_health (u.current_health + e.value), ?_, ?_, min_le_left _ _⟩
    · unfold heal_health_after Unit.heal
      rw [he]
      rfl
    · exact le_min hmax (le_add_of_nonneg_right hev)

/-- Witness for the amended C5: a Physical hit of 50 and a heal of 40 on the
basic unit. -/
theorem spec_C5_witness :
    (∃ h1, health_after u_basic d_phys50 = some h1 ∧
      h1 ≤ u_basic.current_health ∧ 0 ≤ h1) ∧
    (∃ h2, heal_health_after u_basic d_heal40 = some h2 ∧
      u_basic.current_health ≤ h2 ∧ h2 ≤ u_basic.get_max_health) :=
  spec_C5_amended u_basic d_phys50 d_heal40
    rfl (by norm_num [d_phys50]) (by norm_num [u_basic])
    rfl (by norm_num [d_heal40]) (by norm_num [u_basic, Unit.get_max_health])

/-- On tagged Damage objects, take_damage_opt agrees with take_damage (the
only raise left is the heal-tag check, which happens before any mutation). -/
lemma take_damage_opt_tagged (u : Unit) (d : DamageOpt) (t : DamageType)
    (ht : d.dmg_type = some t) :
    u.take_damage_opt d =
      match u.take_damage (d.tag t) with
      | Except.ok r => Except.ok r
      | Except.error msg => Except.error (msg, u) := by
  cases hd : d.heal <;>
    simp [Unit.take_damage_opt, Unit.take_damage, DamageOpt.tag, ht, hd]

/-- The untagged, non-heal damage object: every field at the Python default
except a positive raw value. -/
def d_untagged : DamageOpt := { value := 50, frame_number := 1 }

/-- Claim C6 fails as stated: a non-heal Damage whose dmg_type was left at the
Python default None makes take_damage raise (an UnboundLocalError at the
min(mitigated_damage, ...) line) even though it is not heal-tagged — and only
after premitigation mana was granted, so the unit's mana is not left
unchanged either (here it moves from 0 to 1/2). -/
theorem spec_C6_counterexample :
    d_untagged.heal = false ∧
    exceptOk (u_basic.take_damage_opt d_untagged) = false ∧
    (error_unit_of (u_basic.take_damage_opt d_untagged)).map (fun v => v.current_mana) =
      some (1 / 2) ∧
    u_basic.current_mana = 0 := by
  refine ⟨rfl, rfl, ?_, rfl⟩
  norm_num [Unit.take_damage_opt, error_unit_of, u_basic, d_untagged,
    Unit.premigitation_mana, min_def]

/-- Claim C6 as amended: take_damage raises exactly when the Damage object is
heal-tagged or carries no DamageType tag; a heal-tag raise happens before any
mutation (the error state is the unit as passed), while an untagged raise is
the accidental UnboundLocalError that fires only after premitigation mana was
granted; heal raises exactly when the Damage object is not heal-tagged, before
any state change. In particular, on Damage objects tagged with one of the
three DamageType values, take_damage raises exactly when heal-tagged. -/
theorem spec_C6_amended (u : Unit) (d : DamageOpt) :
    exceptOk (u.take_damage_opt d) = (!d.heal && d.dmg_type.isSome) ∧
    error_unit_of (u.take_damage_opt d) =
      (if d.heal then some u
       else if d.dmg_type.isSome then none
       else some (u.premigitation_mana d.value)) ∧
    exceptOk (u.heal_opt d) = d.heal := by
  cases hd : d.heal <;> cases ht : d.dmg_type <;>
    simp [Unit.take_damage_opt, Unit.heal_opt, exceptOk, error_unit_of, hd, ht]

/-- Claim C8 fails on the code: a SelfHealSpell executing at engine frame 5
appends a HEALING_DONE event whose frame_number is the hardcoded 0, not 5, so
a log already holding an event of frame 3 (or any frame ≥ 1) is no longer
ordered by frame number. -/
theorem spec_C8_heal_event_frame :
    (selfHealSpellExecute tank_example 5).map (fun r => r.2.frame_number) = some 0 ∧
    (selfHealSpellExecute tank_example 5).map (fun r => r.2.event_type) =
      some CombatEventType.HEALING_DONE ∧
    ¬ ((3:ℤ) ≤ 0) ∧ (0:ℤ) ≠ 5 := by decide

/-- Claim C10: planning an attack leaves 0 ≤ basic_attack_overflow < effective
attack speed (whenever that speed is positive, whatever the previous overflow
was), and the resolution frame is the current frame plus
ceil((attack_delay - previous overflow) / effective attack speed). -/
theorem spec_C10 (frame : ℤ) (attack_delay : ℚ) (u : Unit)
    (hs : 0 < u.get_attack_speed) :
    0 ≤ (plan_attack_timing frame attack_delay u).1.basic_attack_overflow ∧
    (plan_attack_timing frame attack_delay u).1.basic_attack_overflow <
      u.get_attack_speed ∧
    (plan_attack_timing frame attack_delay u).2 =
      frame + ⌈(attack_delay - u.basic_attack_overflow) / u.get_attack_speed⌉ := by
  have hne : u.get_attack_speed ≠ 0 := ne_of_gt hs
  set s := u.get_attack_speed with hsdef
  set n := attack_delay - u.basic_attack_overflow with hndef
  have hover : (plan_attack_timing frame attack_delay u).1.basic_attack_overflow =
      ((⌈n / s⌉ : ℚ) - n / s) * s := by
    show ((⌈n / s⌉ : ℤ) : ℚ) * s - n = ((⌈n / s⌉ : ℚ) - n / s) * s
    rw [sub_mul, div_mul_cancel₀ _ hne]
  refine ⟨?_, ?_, rfl⟩
  · rw [hover]
    exact mul_nonneg (sub_nonneg.2 (Int.le_ceil _)) (le_of_lt hs)
  · rw [hover]
    calc ((⌈n / s⌉ : ℚ) - n / s) * s < 1 * s := by
          refine mul_lt_mul_of_pos_right ?_ hs
          have := Int.ceil_lt_add_one (n / s)
          linarith
      _ = s := one_mul s

/-- Witness for C10: the basic unit (speed 1, overflow 0) attacking with delay
10 at frame 3. -/
theorem spec_C10_witness :
    0 < u_basic.get_attack_speed ∧
    (0 ≤ (plan_attack_timing 3 10 u_basic).1.basic_attack_overflow ∧
     (plan_attack_timing 3 10 u_basic).1.basic_attack_overflow <
       u_basic.get_attack_speed ∧
     (plan_attack_timing 3 10 u_basic).2 =
       3 + ⌈((10:ℚ) - u_basic.basic_attack_overflow) / u_basic.get_attack_speed⌉) :=
  ⟨by norm_num [Unit.get_attack_speed, u_basic],
    spec_C10 3 10 u_basic (by norm_num [Unit.get_attack_speed, u_basic])⟩

/-- An enemy unit, first in scan order. -/
def e_one : Unit :=
  { id := 1
    team := 2
    position := some (0, 1)
    current_health := 50
    base_stats :=
      { health := 100, attack := 10, spell_power := 1, defense := 5, resistance := 5
        range := 1 } }

/-- An enemy unit, second in scan order, tied with e_one on both targeting
distances. -/
def e_two : Unit :=
  { id := 2
    team := 2
    position := some (0, 2)
    current_health := 50
    base_stats :=
      { health := 100, attack := 10, spell_power := 1, defense := 5, resistance := 5
        range := 1 } }

/-- Claim C4 fails on the code: with two living enemies tied on
pathfinding-distance-to-range and on Euclidean distance and no sticky current
target, _find_target compares the second tied candidate's roll against
1/best_count while best_count is still 1, and every random() value lies in
[0,1), so the comparison always succeeds and the second scanned enemy is
always selected — selection probabilities are 0 and 1, not 1/2 each. -/
theorem spec_C4_always_second (r : ℚ) (h0 : 0 ≤ r) (h1 : r < 1) :
    find_target (fun _ => some 1) (fun _ => 5) none (fun _ => r)
        u_basic [e_one, e_two] = some e_two ∧
    e_two ≠ e_one := by
  constructor
  · simp [find_target, find_target_step, u_basic, e_one, e_two, h1]
  · simp [e_one, e_two]

/-- Witness for C4's theorem: the roll 1/2 (and indeed any roll in [0,1))
selects the second tied enemy. -/
theorem spec_C4_witness :
    0 ≤ (1/2 : ℚ) ∧ (1/2 : ℚ) < 1 ∧
    (find_target (fun _ => some 1) (fun _ => 5) none (fun _ => (1/2 : ℚ))
        u_basic [e_one, e_two] = some e_two ∧
      e_two ≠ e_one) :=
  ⟨by norm_num, by norm_num, spec_C4_always_second (1/2) (by norm_num) (by norm_num)⟩

/-- A full-mana unit with a non-ranged spell (a tank at full mana). -/
def caster_example : Unit := { tank_example with current_mana := 100 }

/-- Another full-mana non-ranged caster, for the witness. -/
def caster_example2 : Unit := { tank_example with id := 9, current_mana := 150 }

/-- Claim C7 as amended: when a full-mana unit's spell prepare returns false,
_plan_unit_action raises ValueError("Invalid prepare for spell") instead of
falling through to targeting, attacking or movement, in both raise sites: the
non-ranged branch, and the ranged branch when the selected target is within
spell range (the branch reachable with the shipped spells, e.g.
AssassinBlinkSpell's prepare finding no enemy in its L1 scan radius). Mana is
not spent before the raise. -/
theorem spec_C7_amended (u : Unit) (all_units : List Unit)
    (dist : Unit → Option ℚ) (l2 : Unit → ℚ) (sticky_dist : Option ℚ) (rolls : ℕ → ℚ)
    (prep_target : Option Unit) (move_target : ℕ × ℕ)
    (henemies :
      (all_units.filter (fun e => e.is_alive && !(e.team == u.team))).isEmpty = false)
    (hpos : u.position.isSome = true)
    (hmana : u.base_stats.max_mana ≤ u.current_mana)
    (hbranch : u.base_stats.spell.ranged = false ∨
      (u.base_stats.spell.ranged = true ∧
        ∃ t, find_target dist l2 sticky_dist rolls u
            (all_units.filter (fun e => e.is_alive && !(e.team == u.team))) = some t ∧
          t.position.isSome = true ∧
          l2 t ≤ u.base_stats.spell.range + 1 / 100)) :
    plan_unit_action u all_units dist l2 sticky_dist rolls false prep_target move_target =
      Except.error ("Invalid prepare for spell") := by
  obtain ⟨p, hp⟩ := Option.isSome_iff_exists.mp hpos
  rcases hbranch with hranged | ⟨hranged, t, hft, htpos, hdist⟩
  · simp only [plan_unit_action, henemies, hp, hranged]
    simp [hmana]
  · obtain ⟨q, hq⟩ := Option.isSome_iff_exists.mp htpos
    simp only [plan_unit_action, henemies, hp, hranged, hft, hq]
    simp [hmana, hdist]
    intro hlt
    linarith [hdist]

/-- Claim C7 fails on the code as stated: a concrete full-mana tank whose
(non-ranged) spell prepare returns false makes planning raise, rather than
proceed to the remaining options. -/
theorem spec_C7_counterexample :
    plan_unit_action caster_example [caster_example, u_basic]
      (fun _ => some 1) (fun _ => 1) none (fun _ => 0) false none (0, 0) =
      Except.error ("Invalid prepare for spell") := by
  norm_num [plan_unit_action, caster_example, tank_example, u_basic, Unit.is_alive]

/-- A full-mana ranged caster (a mage with the Fireball spell data). -/
def mage_caster : Unit :=
  { id := 11
    team := 1
    position := some (0, 0)
    current_health := 600
    current_mana := 50
    base_stats :=
      { health := 600, attack := 40, spell_power := 5 / 2, defense := 20, resistance := 20
        range := 4, max_mana := 50
        spell := { ranged := true, range := 5, spell_delay := 2 } } }

/-- Witness for the amended C7, exercising the ranged in-range branch: a
full-mana mage whose selected target sits within spell range and whose prepare
returns false. -/
theorem spec_C7_witness :
    (([mage_caster, e_one].filter
        (fun e => e.is_alive && !(e.team == mage_caster.team))).isEmpty = false ∧
     mage_caster.position.isSome = true ∧
     mage_caster.base_stats.max_mana ≤ mage_caster.current_mana ∧
     (mage_caster.base_stats.spell.ranged = true ∧
       ∃ t, find_target (fun _ => some 1) (fun _ => (3:ℚ)) none (fun _ => 0) mage_caster
           ([mage_caster, e_one].filter
             (fun e => e.is_alive && !(e.team == mage_caster.team))) = some t ∧
         t.position.isSome = true ∧
         (3:ℚ) ≤ mage_caster.base_stats.spell.range + 1 / 100)) ∧
    plan_unit_action mage_caster [mage_caster, e_one]
      (fun _ => some 1) (fun _ => (3:ℚ)) none (fun _ => 0) false none (0, 0) =
      Except.error ("Invalid prepare for spell") := by
  have hfilter : ([mage_caster, e_one].filter
      (fun e => e.is_alive && !(e.team == mage_caster.team))) = [e_one] := by
    norm_num [Unit.is_alive, mage_caster, e_one]
  have hft : find_target (fun _ => some 1) (fun _ => (3:ℚ)) none (fun _ => 0) mage_caster
      ([mage_caster, e_one].filter
        (fun e => e.is_alive && !(e.team == mage_caster.team))) = some e_one := by
    rw [hfilter]
    simp [find_target, find_target_step, mage_caster, e_one]
  refine ⟨⟨?_, rfl, ?_, rfl, e_one, hft, rfl, ?_⟩, ?_⟩
  · rw [hfilter]
    rfl
  · norm_num [mage_caster]
  · norm_num [mage_caster]
  · exact spec_C7_amended mage_caster [mage_caster, e_one]
      (fun _ => some 1) (fun _ => (3:ℚ)) none (fun _ => 0) none (0, 0)
      (by rw [hfilter]; rfl)
      rfl
      (by norm_num [mage_caster])
      (Or.inr ⟨rfl, e_one, hft, rfl, by norm_num [mage_caster]⟩)

/-- Claim C2: when N ≥ 2 planned Move actions of the same frame claim the same
(empty, in-bounds) destination cell, conflict resolution keeps exactly one of
them — the RNG pick, modelled by its index k — as a Move, immediately marks
the destination cell planned (not occupied), and converts each of the other
N-1 actions to a Wait whose resolution frame is the current frame plus the
move delay; each claimant is the pick for exactly one of the N equally likely
RNG outcomes, a fraction 1/N of them. -/
theorem spec_C2 (s : BState) (frame move_delay : ℤ)
    (actions : List PlannedAction) (k : Fin actions.length) (p : ℕ × ℕ)
    (hN : 2 ≤ actions.length)
    (hnodup : actions.Nodup)
    (hmove : ∀ a ∈ actions,
      a.action_type = CombatAction.MOVE ∧ a.target_position = some p)
    (hvalid : s.is_valid_position p = true)
    (hempty : (s.cells p).is_empty = true) :
    ∃ out s1, resolve_position_conflict s frame move_delay actions k = some (out, s1) ∧
      out.length = actions.length ∧
      out.head? = some (actions.get k) ∧
      (actions.get k).action_type = CombatAction.MOVE ∧
      (∀ a ∈ out, a = actions.get k ∨
        (a.action_type = CombatAction.WAIT ∧ a.resolution_frame = frame + move_delay)) ∧
      out.countP (fun a => a.action_type == CombatAction.MOVE) = 1 ∧
      (s1.cells p).is_planned = true ∧
      (s1.cells p).is_occupied = false ∧
      (∀ i : Fin actions.length,
        ((Finset.univ.filter
            (fun j : Fin actions.length => actions.get j = actions.get i)).card : ℚ) /
          ((Fintype.card (Fin actions.length) : ℚ)) = 1 / (actions.length : ℚ)) := by
  have hmem : actions.get k ∈ actions := actions.get_mem k.1 k.2
  obtain ⟨hcm, hcp⟩ := hmove (actions.get k) hmem
  have hsp : s.set_planned p (actions.get k).unit.id =
      some { s with cells := Function.update s.cells p
                               ({ unit := some (actions.get k).unit.id,
                                  cell_type := CellType.PLANNED }) } := by
    unfold BState.set_planned
    rw [hvalid, hempty]
    rfl
  have hres : resolve_position_conflict s frame move_delay actions k =
      some (actions.get k ::
          (actions.filter (fun a => a != actions.get k)).map
            (fun a => { a with
              action_type := CombatAction.WAIT
              resolution_frame := frame + move_delay }),
        { s with
          cells := Function.update s.cells p
                     ({ unit := some (actions.get k).unit.id, cell_type := CellType.PLANNED })
          ppos := Function.update s.ppos (actions.get k).unit.id (some p) }) := by
    simp only [resolve_position_conflict, hcp, hsp]
  refine ⟨_, _, hres, ?_, rfl, hcm, ?_, ?_, ?_, ?_, ?_⟩
  · have hfl : actions.filter (fun a => a != actions.get k) = actions.erase (actions.get k) :=
      (List.Nodup.erase_eq_filter hnodup _).symm
    simp only [List.length_cons, List.length_map, hfl]
    rw [List.length_erase_of_mem hmem]
    omega
  · intro a ha
    rcases List.mem_cons.mp ha with h | h
    · exact Or.inl h
    · obtain ⟨b, _, hb⟩ := List.mem_map.mp h
      exact Or.inr ⟨by rw [← hb], by rw [← hb]⟩
  · rw [List.countP_cons]
    have hz : ((actions.filter (fun a => a != actions.get k)).map
        (fun a => { a with
          action_type := CombatAction.WAIT
          resolution_frame := frame + move_delay })).countP
          (fun a => a.action_type == CombatAction.MOVE) = 0 := by
      rw [List.countP_eq_zero]
      intro a ha
      obtain ⟨b, _, hb⟩ := List.mem_map.mp ha
      rw [← hb]
      simp
    rw [hz, hcm]
    rfl
  · simp [BoardCell.is_planned, Function.update]
  · simp [BoardCell.is_occupied, Function.update]
  · intro i
    have hset : (Finset.univ.filter
        (fun j : Fin actions.length => actions.get j = actions.get i)) = {i} := by
      apply Finset.ext
      intro j
      simp only [Finset.mem_filter, Finset.mem_univ, true_and, Finset.mem_singleton]
      exact (List.Nodup.get_inj_iff hnodup)
    rw [hset, Finset.card_singleton, Fintype.card_fin]
    norm_num

/-- A planned Move action for the witness, by the basic unit. -/
def a_one : PlannedAction :=
  { unit := u_basic
    action_type := CombatAction.MOVE
    target_position := some (1, 1)
    resolution_frame := 8
    planned_frame := 4 }

/-- A second planned Move action for the witness, by another unit, claiming
the same destination. -/
def a_two : PlannedAction :=
  { unit := e_one
    action_type := CombatAction.MOVE
    target_position := some (1, 1)
    resolution_frame := 8
    planned_frame := 4 }

/-- Witness for C2: two Move actions claiming the empty cell (1,1) of a fresh
2x2 board, the RNG picking the first. -/
theorem spec_C2_witness :
    (2 ≤ ([a_one, a_two] : List PlannedAction).length ∧
     ([a_one, a_two] : List PlannedAction).Nodup ∧
     (∀ a ∈ ([a_one, a_two] : List PlannedAction),
       a.action_type = CombatAction.MOVE ∧ a.target_position = some (1, 1)) ∧
     (Board_init 2 2).is_valid_position (1, 1) = true ∧
     ((Board_init 2 2).cells (1, 1)).is_empty = true) ∧
    (∃ out s1, resolve_position_conflict (Board_init 2 2) 4 4 [a_one, a_two]
        ⟨0, by norm_num⟩ = some (out, s1) ∧
      out.length = ([a_one, a_two] : List PlannedAction).length ∧
      out.head? = some (([a_one, a_two] : List PlannedAction).get ⟨0, by norm_num⟩) ∧
      (([a_one, a_two] : List PlannedAction).get ⟨0, by norm_num⟩).action_type =
        CombatAction.MOVE ∧
      (∀ a ∈ out, a = ([a_one, a_two] : List PlannedAction).get ⟨0, by norm_num⟩ ∨
        (a.action_type = CombatAction.WAIT ∧ a.resolution_frame = 4 + 4)) ∧
      out.countP (fun a => a.action_type == CombatAction.MOVE) = 1 ∧
      (s1.cells (1, 1)).is_planned = true ∧
      (s1.cells (1, 1)).is_occupied = false ∧
      (∀ i : Fin ([a_one, a_two] : List PlannedAction).length,
        ((Finset.univ.filter
            (fun j : Fin ([a_one, a_two] : List PlannedAction).length =>
              ([a_one, a_two] : List PlannedAction).get j =
                ([a_one, a_two] : List PlannedAction).get i)).card : ℚ) /
          ((Fintype.card (Fin ([a_one, a_two] : List PlannedAction).length) : ℚ)) =
          1 / (([a_one, a_two] : List PlannedAction).length : ℚ))) :=
  ⟨⟨by norm_num,
    by simp [a_one, a_two, u_basic, e_one],
    by simp [a_one, a_two],
    rfl, rfl⟩,
    spec_C2 (Board_init 2 2) 4 4 [a_one, a_two] ⟨0, by norm_num⟩ (1, 1)
      (by norm_num)
      (by simp [a_one, a_two, u_basic, e_one])
      (by simp [a_one, a_two])
      rfl rfl⟩

/-- Unfolding of BoardCell.is_empty. -/
lemma is_empty_iff (c : BoardCell) :
    c.is_empty = true ↔ c.unit = none ∧ c.cell_type = CellType.EMPTY := by
  simp [BoardCell.is_empty]

/-- A freshly initialised board satisfies the occupancy invariant. -/
lemma good_init (w h : ℕ) : Good (Board_init w h) := by
  refine ⟨?_, ?_, ?_, ?_, ?_⟩ <;> intro p <;> simp [Board_init]

/-- place_unit preserves the occupancy invariant when the placed unit is not
already on the board. -/
lemma good_place (s : BState) (uid : ℕ) (pos : ℕ × ℕ)
    (hg : Good s) (hpre : s.upos uid = none) :
    Good (s.place_unit uid pos).1 := by
  obtain ⟨g1, g2, g3, g4, g5⟩ := hg
  by_cases hv : s.is_valid_position pos = true
  · by_cases he : (s.cells pos).is_empty = true
    · have hstate : (s.place_unit uid pos).1 =
          { s with
            cells := Function.update s.cells pos
                       ({ unit := some uid, cell_type := CellType.UNIT })
            upos := Function.update s.upos uid (some pos) } := by
        unfold BState.place_unit
        rw [hv, he]
        rfl
      rw [hstate]
      refine ⟨?_, ?_, ?_, ?_, ?_⟩
      · intro p
        simp only [Function.update_apply]
        by_cases hp : p = pos <;> simp [hp, g1 p]
      · intro p
        simp only [Function.update_apply]
        by_cases hp : p = pos
        · subst hp
          simp
        · simp only [if_neg hp]
          exact g2 p
      · intro p
        simp only [Function.update_apply]
        by_cases hp : p = pos
        · subst hp
          intro _
          exact ⟨uid, by simp, by simp [Function.update_apply]⟩
        · simp only [hp, if_false, if_neg hp]
          intro hU
          obtain ⟨v, hv1, hv2⟩ := g3 p hU
          refine ⟨v, hv1, ?_⟩
          have hvu : v ≠ uid := by
            intro hcontra
            rw [hcontra, hpre] at hv2
            exact Option.noConfusion hv2
          simp [Function.update_apply, hvu, hv2]
      · intro v p
        simp only [Function.update_apply]
        by_cases hvu : v = uid
        · subst hvu
          simp only [if_pos rfl]
          intro hsome
          have hppos : p = pos := by
            injection hsome with h1
            exact h1.symm
          subst hppos
          refine ⟨hv, ?_, ?_⟩ <;> simp [Function.update_apply, BState.is_valid_position]
        · simp only [if_neg hvu]
          intro hup
          obtain ⟨h1, h2, h3⟩ := g4 v p hup
          have hppos : p ≠ pos := by
            intro hcontra
            subst hcontra
            rw [((is_empty_iff _).mp he).1] at h2
            exact Option.noConfusion h2
          exact ⟨h1, by simp [Function.update_apply, hppos, h2],
            by simp [Function.update_apply, hppos, h3]⟩
      · intro p hpv
        have hpv2 : s.is_valid_position p = false := hpv
        have hppos : p ≠ pos := by
          intro hcontra
          subst hcontra
          rw [hv] at hpv2
          exact Bool.noConfusion hpv2
        have := g5 p hpv2
        simp [Function.update_apply, hppos, this]
    · have hstate : (s.place_unit uid pos).1 = s := by
        unfold BState.place_unit
        rw [hv]
        simp [he]
      rw [hstate]
      exact ⟨g1, g2, g3, g4, g5⟩
  · have hstate : (s.place_unit uid pos).1 = s := by
      unfold BState.place_unit
      simp only [Bool.not_eq_true] at hv
      rw [hv]
      rfl
    rw [hstate]
    exact ⟨g1, g2, g3, g4, g5⟩

/-- A cell holding a unit is tagged UNIT under the invariant. -/
lemma cell_unit_of_some (s : BState) (hg : Good s) (p : ℕ × ℕ) (uid : ℕ)
    (hu : (s.cells p).unit = some uid) :
    (s.cells p).cell_type = CellType.UNIT ∧ s.upos uid = some p := by
  obtain ⟨g1, g2, g3, _, _⟩ := hg
  have ht : (s.cells p).cell_type = CellType.UNIT := by
    rcases g1 p with h | h
    · rw [g2 p h] at hu
      exact Option.noConfusion hu
    · exact h
  obtain ⟨v, hv1, hv2⟩ := g3 p ht
  rw [hu] at hv1
  injection hv1 with hv1
  rw [hv1]
  exact ⟨ht, hv2⟩

/-- move_unit preserves the occupancy invariant (when it does not raise). -/
lemma good_move (s : BState) (fromp top : ℕ × ℕ) (r : BState × Bool)
    (hg : Good s) (hr : s.move_unit fromp top = some r) : Good r.1 := by
  have hgs := hg
  simp only [BState.move_unit] at hr
  split at hr
  · cases Option.some.inj hr
    exact hgs
  · rename_i hvv
    have hvv2 : s.is_valid_position fromp = true ∧ s.is_valid_position top = true := by
      have hand : (s.is_valid_position fromp && s.is_valid_position top) = true := by
        cases hb : (s.is_valid_position fromp && s.is_valid_position top)
        · rw [hb] at hvv
          simp at hvv
        · rfl
      simpa using hand
    split at hr
    · cases Option.some.inj hr
      exact hgs
    · rename_i uid hu
      obtain ⟨g1, g2, g3, g4, g5⟩ := hg
      obtain ⟨htF, hupos⟩ := cell_unit_of_some s hgs fromp uid hu
      split at hr
      · cases Option.some.inj hr
        exact ⟨g1, g2, g3, g4, g5⟩
      · rename_i hguard
        have htop_ne : top ≠ fromp := by
          intro hcontra
          apply hguard
          subst hcontra
          simp [BoardCell.is_occupied, htF]
        have htopE : (s.cells top).cell_type = CellType.EMPTY := by
          rcases g1 top with h | h
          · exact h
          · exfalso
            apply hguard
            simp [BoardCell.is_occupied, h]
        have htopU : (s.cells top).unit = none := g2 top htopE
        split at hr
        · cases Option.some.inj hr
          refine ⟨?_, ?_, ?_, ?_, ?_⟩
          · intro p
            simp only [Function.update_apply]
            by_cases hp1 : p = top
            · simp [hp1]
            · by_cases hp2 : p = fromp <;>
                simp [hp1, hp2, g1 p, Ne.symm htop_ne]
          · intro p
            simp only [Function.update_apply]
            by_cases hp1 : p = top
            · simp [hp1]
            · by_cases hp2 : p = fromp
              · simp [hp1, hp2, Ne.symm htop_ne]
              · simp only [if_neg hp1, if_neg hp2]
                exact g2 p
          · intro p
            simp only [Function.update_apply]
            by_cases hp1 : p = top
            · subst hp1
              intro _
              exact ⟨uid, by simp, by simp [Function.update_apply]⟩
            · by_cases hp2 : p = fromp
              · subst hp2
                simp [hp1, Ne.symm htop_ne]
              · simp only [if_neg hp1, if_neg hp2]
                intro hU
                obtain ⟨v, hv1, hv2⟩ := g3 p hU
                have hvu : v ≠ uid := by
                  intro hcontra
                  rw [hcontra, hupos] at hv2
                  injection hv2 with hv2
                  exact hp2 hv2.symm
                exact ⟨v, hv1, by simp [Function.update_apply, hvu, hv2]⟩
          · intro v p
            simp only [Function.update_apply]
            by_cases hvu : v = uid
            · subst hvu
              simp only [if_pos rfl]
              intro hsome
              injection hsome with hsome
              subst hsome
              refine ⟨hvv2.2, ?_, ?_⟩ <;> simp [Function.update_apply]
            · simp only [if_neg hvu]
              intro hup
              obtain ⟨h1, h2, h3⟩ := g4 v p hup
              have hp2 : p ≠ fromp := by
                intro hcontra
                subst hcontra
                rw [hu] at h2
                injection h2 with h2
                exact hvu h2.symm
              have hp1 : p ≠ top := by
                intro hcontra
                subst hcontra
                rw [htopU] at h2
                exact Option.noConfusion h2
              exact ⟨h1, by simp [Function.update_apply, hp1, hp2, h2],
                by simp [Function.update_apply, hp1, hp2, h3]⟩
          · intro p hpv
            have hpv2 : s.is_valid_position p = false := hpv
            have hp1 : p ≠ top := by
              intro hcontra
              subst hcontra
              rw [hvv2.2] at hpv2
              exact Bool.noConfusion hpv2
            have hp2 : p ≠ fromp := by
              intro hcontra
              subst hcontra
              rw [hvv2.1] at hpv2
              exact Bool.noConfusion hpv2
            have := g5 p hpv2
            simp [Function.update_apply, hp1, hp2, this]
        · exact Option.noConfusion hr

/-- remove_unit preserves the occupancy invariant (when it does not raise). -/
lemma good_remove (s : BState) (pos : ℕ × ℕ) (s1 : BState)
    (hg : Good s) (hr : s.remove_unit pos = some s1) : Good s1 := by
  have hgs := hg
  obtain ⟨g1, g2, g3, g4, g5⟩ := hg
  simp only [BState.remove_unit] at hr
  split at hr
  · exact Option.noConfusion hr
  · rename_i hval
    have hvalid : s.is_valid_position pos = true := by
      cases hb : s.is_valid_position pos
      · rw [hb] at hval
        simp at hval
      · rfl
    split at hr
    · split at hr
      · rename_i uid hu
        cases Option.some.inj hr
        obtain ⟨htP, hupos⟩ := cell_unit_of_some s hgs pos uid hu
        refine ⟨?_, ?_, ?_, ?_, ?_⟩
        · intro p
          simp only [Function.update_apply]
          by_cases hp : p = pos <;> simp [hp, g1 p]
        · intro p
          simp only [Function.update_apply]
          by_cases hp : p = pos
          · simp [hp]
          · simp only [if_neg hp]
            exact g2 p
        · intro p
          simp only [Function.update_apply]
          by_cases hp : p = pos
          · simp [hp]
          · simp only [if_neg hp]
            intro hU
            obtain ⟨v, hv1, hv2⟩ := g3 p hU
            have hvu : v ≠ uid := by
              intro hcontra
              rw [hcontra, hupos] at hv2
              injection hv2 with hv2
              exact hp hv2.symm
            exact ⟨v, hv1, by simp [Function.update_apply, hvu, hv2]⟩
        · intro v p
          simp only [Function.update_apply]
          by_cases hvu : v = uid
          · subst hvu
            simp
          · simp only [if_neg hvu]
            intro hup
            obtain ⟨h1, h2, h3⟩ := g4 v p hup
            have hp : p ≠ pos := by
              intro hcontra
              subst hcontra
              rw [hu] at h2
              injection h2 with h2
              exact hvu h2.symm
            exact ⟨h1, by simp [Function.update_apply, hp, h2],
              by simp [Function.update_apply, hp, h3]⟩
        · intro p hpv
          have hpv2 : s.is_valid_position p = false := hpv
          have hp : p ≠ pos := by
            intro hcontra
            subst hcontra
            rw [hvalid] at hpv2
            exact Bool.noConfusion hpv2
          have := g5 p hpv2
          simp [Function.update_apply, hp, this]
      · exact Option.noConfusion hr
    · exact Option.noConfusion hr

/-- The occupancy invariant implies the claim's conclusions. -/
lemma good_occupancy (s : BState) (hg : Good s) :
    (∀ p q uid, (s.cells p).unit = some uid → (s.cells q).unit = some uid → p = q) ∧
    (∀ p, (s.cells p).is_occupied = true ↔
      ∃ uid, (s.cells p).unit = some uid ∧ s.upos uid = some p) ∧
    (∀ uid v p, s.upos uid = some p → s.upos v = some p → uid = v) ∧
    s.get_units.Nodup := by
  have huniq : ∀ p q uid,
      (s.cells p).unit = some uid → (s.cells q).unit = some uid → p = q := by
    intro p q uid hp hq
    have h1 := (cell_unit_of_some s hg p uid hp).2
    have h2 := (cell_unit_of_some s hg q uid hq).2
    rw [h1] at h2
    injection h2
  obtain ⟨g1, g2, g3, g4, g5⟩ := hg
  refine ⟨huniq, ?_, ?_, ?_⟩
  · intro p
    constructor
    · intro hocc
      have ht : (s.cells p).cell_type = CellType.UNIT := by
        simpa [BoardCell.is_occupied] using hocc
      exact g3 p ht
    · intro ⟨uid, _, hup⟩
      have := (g4 uid p hup).2.2
      simp [BoardCell.is_occupied, this]
  · intro uid v p hu hv
    have h1 := (g4 uid p hu).2.1
    have h2 := (g4 v p hv).2.1
    rw [h1] at h2
    injection h2
  · apply List.Nodup.filterMap
    · intro p q uid h1 h2
      rw [Option.mem_def] at h1 h2
      exact huniq p q uid h1 h2
    · exact List.Nodup.product (List.nodup_range _) (List.nodup_range _)

/-- Claim C9 as amended: after any non-raising sequence of place_unit,
move_unit and remove_unit operations on a fresh board — with set_planned
excluded, and place_unit only ever given units not already on the board — no
unit reference is stored in two cells, the occupied cells are exactly those
holding a unit whose stored position is that cell, no two units report the
same position, and get_units returns each unit at most once. -/
theorem spec_C9_amended (w h : ℕ) (cmds : List Cmd)
    (hsafe : safeCmds cmds (Board_init w h) = true) :
    OccupancyOk (runCmds cmds (Board_init w h)) := by
  suffices hgen : ∀ (cs : List Cmd) (s : BState), Good s → safeCmds cs s = true →
      OccupancyOk (runCmds cs s) from hgen cmds _ (good_init w h) hsafe
  intro cs
  induction cs with
  | nil =>
    intro s hg _
    exact good_occupancy s hg
  | cons c cs ih =>
    intro s hg hsafe
    simp only [safeCmds, Bool.and_eq_true] at hsafe
    obtain ⟨hpre, hrest⟩ := hsafe
    cases c with
    | place uid pos =>
      have hg1 : Good (s.place_unit uid pos).1 :=
        good_place s uid pos hg (by simpa [cmdPre] using hpre)
      simp only [runCmds, runCmd]
      simp only [runCmd] at hrest
      exact ih _ hg1 hrest
    | move fromp top =>
      cases hmv : s.move_unit fromp top with
      | none =>
        simp only [runCmds, runCmd, hmv, Option.map_none]
        trivial
      | some r =>
        have hg1 : Good r.1 := good_move s fromp top r hg hmv
        simp only [runCmds, runCmd, hmv, Option.map_some]
        simp only [runCmd, hmv, Option.map_some] at hrest
        exact ih _ hg1 hrest
    | remove pos =>
      cases hrm : s.remove_unit pos with
      | none =>
        simp only [runCmds, runCmd, hrm]
        trivial
      | some s1 =>
        have hg1 : Good s1 := good_remove s pos s1 hg hrm
        simp only [runCmds, runCmd, hrm]
        simp only [runCmd, hrm] at hrest
        exact ih _ hg1 hrest

/-- Witness for the amended C9: placing two units, moving one, removing the
other, on a 2x2 board. -/
theorem spec_C9_witness :
    safeCmds [Cmd.place 0 (0, 0), Cmd.place 1 (1, 1), Cmd.move (0, 0) (0, 1),
      Cmd.remove (1, 1)] (Board_init 2 2) = true ∧
    OccupancyOk (runCmds [Cmd.place 0 (0, 0), Cmd.place 1 (1, 1), Cmd.move (0, 0) (0, 1),
      Cmd.remove (1, 1)] (Board_init 2 2)) :=
  ⟨by decide,
    spec_C9_amended 2 2 [Cmd.place 0 (0, 0), Cmd.place 1 (1, 1), Cmd.move (0, 0) (0, 1),
      Cmd.remove (1, 1)] (by decide)⟩

/-- The board after placing unit 0 at (0,0) on a fresh 2x2 board. -/
def s_place1 : BState := ((Board_init 2 2).place_unit 0 (0, 0)).1

/-- Claim C9 fails as stated when set_planned is among the operations: after
place_unit 0 (0,0) and set_planned (0,1) 0, the same unit reference sits in
two distinct cells and get_units returns it twice; and with a repeated
place_unit of an already-placed unit, an occupied cell holds a unit whose
stored position is a different cell. -/
theorem spec_C9_counterexample :
    ((s_place1.set_planned (0, 1) 0).map (fun s1 => (s1.cells (0, 0)).unit) =
        some (some 0) ∧
      (s_place1.set_planned (0, 1) 0).map (fun s1 => (s1.cells (0, 1)).unit) =
        some (some 0) ∧
      ((0, 0) : ℕ × ℕ) ≠ (0, 1) ∧
      (s_place1.set_planned (0, 1) 0).map (fun s1 => s1.get_units) = some [0, 0] ∧
      ¬ ([0, 0] : List ℕ).Nodup) ∧
    (((s_place1.place_unit 0 (0, 1)).1.cells (0, 0)).unit = some 0 ∧
      (s_place1.place_unit 0 (0, 1)).1.upos 0 = some (0, 1)) := by decide

end AutoChess
